import Mathlib

/-!
Shallow embedding of the zID generator (src/main.rs): a CLI tool converting
between Unix timestamps and radix-encoded identifier strings.  Pure fragments
of the program (radix encoding via the radix_fmt crate, radix decoding via
u64::from_str_radix, calendar conversion and strict date parsing via chrono,
argument resolution in main) are translated into executable Lean definitions,
and the specified properties are proved about them.
-/

namespace ZID

/-! Digit alphabet.  radix_fmt writes digits 0-9 then lowercase a-z; Rust's
char::to_digit (used by u64::from_str_radix) reads 0-9, a-z and A-Z. -/

/-- Digit character table of radix_fmt: value 0-9 maps to the decimal digit,
10-35 to the lowercase letter.  Values ≥ 36 never occur (digits of a base-b
number are < b ≤ 36). -/
def digitChar : Nat → Char
  | 0 => '0' | 1 => '1' | 2 => '2' | 3 => '3' | 4 => '4'
  | 5 => '5' | 6 => '6' | 7 => '7' | 8 => '8' | 9 => '9'
  | 10 => 'a' | 11 => 'b' | 12 => 'c' | 13 => 'd' | 14 => 'e'
  | 15 => 'f' | 16 => 'g' | 17 => 'h' | 18 => 'i' | 19 => 'j'
  | 20 => 'k' | 21 => 'l' | 22 => 'm' | 23 => 'n' | 24 => 'o'
  | 25 => 'p' | 26 => 'q' | 27 => 'r' | 28 => 's' | 29 => 't'
  | 30 => 'u' | 31 => 'v' | 32 => 'w' | 33 => 'x' | 34 => 'y'
  | 35 => 'z'
  | _ => '?'

/-- Numeric value of a character code in base `b`, mirroring Rust's
char::to_digit: codes 48-57 are 0-9, codes 97-122 are 10-35, codes 65-90 are
10-35 (uppercase accepted), and the value must be < b. -/
def digitValCode (b n : Nat) : Option Nat :=
  if 48 ≤ n ∧ n ≤ 57 then (if n - 48 < b then some (n - 48) else none)
  else if 97 ≤ n ∧ n ≤ 122 then (if n - 87 < b then some (n - 87) else none)
  else if 65 ≤ n ∧ n ≤ 90 then (if n - 55 < b then some (n - 55) else none)
  else none

/-- Numeric value of a character in base `b` (char::to_digit). -/
def digitVal (b : Nat) (c : Char) : Option Nat :=
  digitValCode b c.toNat

/-! Radix encoding, modelling radix_fmt::radix on a u64 value: the canonical
minimal-length base-b representation, most significant digit first. -/

/-- Little-endian digit extraction by repeated division; the first argument is
fuel (always called with fuel ≥ n, which suffices since n/b < n for b ≥ 2). -/
def radixDigitsAux (b : Nat) : Nat → Nat → List Nat
  | 0, _ => []
  | _ + 1, 0 => []
  | fuel + 1, n + 1 => ((n + 1) % b) :: radixDigitsAux b fuel ((n + 1) / b)

/-- Little-endian base-b digits of n (empty for n = 0). -/
def radixDigits (b n : Nat) : List Nat :=
  radixDigitsAux b n n

/-- The radix_fmt encoding of a u64 value: "0" for zero, otherwise the base-b
digits, most significant first, over the 0-9a-z alphabet. -/
def natToRadix (b n : Nat) : String :=
  if n = 0 then "0" else String.mk ((radixDigits b n).reverse.map digitChar)

/-- The radix_fmt encoding of a signed (i64) value: a minus sign followed by
the magnitude for negatives (only now_to_zid formats a signed value). -/
def intToRadix (b : Nat) (t : Int) : String :=
  if t < 0 then "-" ++ natToRadix b t.natAbs else natToRadix b t.toNat

/-! Radix decoding, modelling u64::from_str_radix: an optional leading '+',
then a nonempty run of base-b digits (case-insensitive), with checked
accumulation that fails once the value no longer fits in 64 bits. -/

/-- Digit-accumulation loop of from_str_radix.  Rust performs
checked_mul then checked_add on u64; failure of either is exactly
acc * b + d ≥ 2^64, checked here in one condition. -/
def parseDigits (b : Nat) : List Char → Nat → Option Nat
  | [], acc => some acc
  | c :: cs, acc =>
    match digitVal b c with
    | some d => if acc * b + d < 2 ^ 64 then parseDigits b cs (acc * b + d) else none
    | none => none

/-- Model of u64::from_str_radix b: empty input fails; a lone sign fails; a
leading '-' fails for the unsigned type; a leading '+' is skipped; the
remaining characters are parsed as base-b digits. -/
def fromStrRadix (b : Nat) (s : String) : Option Nat :=
  match s.data with
  | [] => none
  | c :: rest =>
    if c = '+' ∨ c = '-' then
      if rest = [] then none
      else if c = '-' then none
      else parseDigits b rest 0
    else parseDigits b (c :: rest) 0

/-! Calendar arithmetic, modelling chrono's proleptic Gregorian calendar
(UTC, no offsets).  Days are counted from 1970-01-01. -/

/-- Leap year rule of the proleptic Gregorian calendar. -/
def isLeap (y : Int) : Bool :=
  y % 4 = 0 && (y % 100 ≠ 0 || y % 400 = 0)

/-- Number of days in a month. -/
def daysInMonth (y : Int) (m : Nat) : Nat :=
  if m = 2 then (if isLeap y then 29 else 28)
  else if m = 4 ∨ m = 6 ∨ m = 9 ∨ m = 11 then 30
  else 31

/-- Days since 1970-01-01 of a calendar date (standard civil-calendar
conversion; Int division here is Euclidean, m and d are 1-based). -/
def daysFromCivil (y : Int) (m d : Nat) : Int :=
  let y2 : Int := if m ≤ 2 then y - 1 else y
  let era := y2 / 400
  let yoe := y2 - era * 400
  let doy : Int := (153 * (if 2 < m then (m : Int) - 3 else (m : Int) + 9) + 2) / 5 + d - 1
  let doe := yoe * 365 + yoe / 4 - yoe / 100 + doy
  era * 146097 + doe - 719468

/-- Calendar date (year, month, day) of a day count since 1970-01-01
(inverse civil-calendar conversion). -/
def civilFromDays (z : Int) : Int × Nat × Nat :=
  let z2 := z + 719468
  let era := z2 / 146097
  let doe := z2 - era * 146097
  let yoe := (doe - doe / 1460 + doe / 36524 - doe / 146096) / 365
  let y := yoe + era * 400
  let doy := doe - (365 * yoe + yoe / 4 - yoe / 100)
  let mp := (5 * doy + 2) / 153
  let d := doy - (153 * mp + 2) / 5 + 1
  let m := if mp < 10 then mp + 3 else mp - 9
  ((if m ≤ 2 then y + 1 else y), m.toNat, d.toNat)

/-- Smallest year chrono's NaiveDate represents (i32::MIN >> 13). -/
def chronoMinYear : Int := -262144

/-- Largest year chrono's NaiveDate represents (i32::MAX >> 13). -/
def chronoMaxYear : Int := 262143

/-- Smallest timestamp NaiveDateTime::from_timestamp_opt accepts
(midnight of chronoMinYear-01-01). -/
def chronoMinTimestamp : Int := daysFromCivil chronoMinYear 1 1 * 86400

/-- Largest timestamp NaiveDateTime::from_timestamp_opt accepts
(last second of chronoMaxYear-12-31). -/
def chronoMaxTimestamp : Int := daysFromCivil chronoMaxYear 12 31 * 86400 + 86399

/-- Reinterpretation of a u64 bit pattern as an i64 (the `timestamp as i64`
cast in zid_to_date / zid_to_iso_date): two's complement wrap-around. -/
def asI64 (n : Nat) : Int :=
  if n < 2 ^ 63 then (n : Int) else (n : Int) - 2 ^ 64

/-- Cast of an i64 timestamp to u64 (the `unix_time as u64` cast in
zid_from_date / zid_from_iso_date): reduction modulo 2^64. -/
def toU64 (t : Int) : Nat :=
  (t % 2 ^ 64).toNat

/-! Formatting, modelling chrono's %Y-%m-%d and %Y-%m-%dT%H:%M:%S output. -/

/-- Decimal rendering of n left-padded with zeros to width w. -/
def padNum (w n : Nat) : String :=
  let s := Nat.repr n
  String.mk (List.replicate (w - s.length) '0') ++ s

/-- Chrono's %Y: zero-padded to 4 digits for years 0-9999; other years are
written with an explicit sign and their digits (zero-padded to width 4). -/
def formatYear (y : Int) : String :=
  if 0 ≤ y ∧ y ≤ 9999 then padNum 4 y.toNat
  else (if y < 0 then "-" else "+") ++ padNum 4 y.natAbs

/-- Chrono's %Y-%m-%d applied to a (year, month, day) triple. -/
def formatYmd (ymd : Int × Nat × Nat) : String :=
  formatYear ymd.1 ++ "-" ++ padNum 2 ymd.2.1 ++ "-" ++ padNum 2 ymd.2.2

/-- The %Y-%m-%d rendering of the UTC calendar date of a timestamp. -/
def dateStringOfTimestamp (t : Int) : String :=
  formatYmd (civilFromDays (t / 86400))

/-- The %Y-%m-%dT%H:%M:%S rendering of the UTC datetime of a timestamp. -/
def isoStringOfTimestamp (t : Int) : String :=
  let tod := (t % 86400).toNat
  formatYmd (civilFromDays (t / 86400)) ++ "T" ++
    padNum 2 (tod / 3600) ++ ":" ++ padNum 2 (tod % 3600 / 60) ++ ":" ++ padNum 2 (tod % 60)

/-! Date parsing, modelling chrono's parse_from_str with the format strings
"%Y-%m-%d" and "%Y-%m-%dT%H:%M:%S".  Chrono's numeric items skip leading
whitespace, accept 1 to `width` digits when unsigned, and for the signed %Y
item accept an explicit sign followed by arbitrarily many digits; literal
items match exactly; the whole input must be consumed. -/

/-- Unicode White_Space test (Rust's char::is_whitespace / str::trim). -/
def isRustWhitespace (c : Char) : Bool :=
  let n := c.toNat
  (9 ≤ n && n ≤ 13) || n == 32 || n == 133 || n == 160 || n == 5760 ||
    (8192 ≤ n && n ≤ 8202) || n == 8232 || n == 8233 || n == 8239 ||
    n == 8287 || n == 12288

/-- Drop leading whitespace (str::trim_start). -/
def trimLeft : List Char → List Char
  | [] => []
  | c :: cs => if isRustWhitespace c then trimLeft cs else c :: cs

/-- Rust's str::trim: whitespace dropped on both ends. -/
def rustTrim (s : String) : String :=
  String.mk (trimLeft (trimLeft s.data).reverse).reverse

/-- ASCII digit test. -/
def isAsciiDigit (c : Char) : Bool :=
  48 ≤ c.toNat && c.toNat ≤ 57

/-- Digit-scanning loop of chrono's scan::number: consume up to `maxw` leading
ASCII digits, accumulating into an i64 with overflow check (the combined
check acc * 10 + d ≤ i64::MAX is equivalent to Rust's checked_mul followed by
checked_add). -/
def scanDigitsAux : Nat → List Char → Nat → Nat × List Char
  | 0, cs, acc => (acc, cs)
  | _ + 1, [], acc => (acc, [])
  | maxw + 1, c :: cs, acc =>
    if isAsciiDigit c then scanDigitsAux maxw cs (acc * 10 + (c.toNat - 48))
    else (acc, c :: cs)

/-- Chrono's scan::number with min = 1: fails on empty input or when the first
character is not an ASCII digit; otherwise consumes 1 to `maxw` digits and
fails if the accumulated value exceeds i64::MAX. -/
def scanNumber (maxw : Nat) (cs : List Char) : Option (Nat × List Char) :=
  match cs with
  | [] => none
  | c :: _ =>
    if isAsciiDigit c then
      let r := scanDigitsAux maxw cs 0
      if r.1 < 2 ^ 63 then some r else none
    else none

/-- Parse step for chrono's signed %Y item (width 4): skip whitespace; with an
explicit sign, arbitrarily many digits are accepted, otherwise at most 4; the
resulting year must fit in an i32 (Parsed::set_year). -/
def parseYearField (cs : List Char) : Option (Int × List Char) :=
  let cs2 := trimLeft cs
  match cs2 with
  | '-' :: rest =>
    (scanNumber rest.length rest).bind fun vr =>
      if -(2 ^ 31) ≤ -(vr.1 : Int) then some (-(vr.1 : Int), vr.2) else none
  | '+' :: rest =>
    (scanNumber rest.length rest).bind fun vr =>
      if (vr.1 : Int) < 2 ^ 31 then some ((vr.1 : Int), vr.2) else none
  | _ =>
    (scanNumber 4 cs2).map fun vr => ((vr.1 : Int), vr.2)

/-- Parse step for an unsigned numeric item of width `w` (month, day, hour,
minute, second): skip whitespace, then 1 to w digits. -/
def parseNumField (w : Nat) (cs : List Char) : Option (Nat × List Char) :=
  scanNumber w (trimLeft cs)

/-- Parse step for a literal character of the format string. -/
def parseLit (c : Char) (cs : List Char) : Option (List Char) :=
  match cs with
  | [] => none
  | c2 :: rest => if c2 = c then some rest else none

/-- Calendar-date validity as enforced by NaiveDate::from_ymd_opt: year in
chrono's representable range, month 1-12, day 1 to the month's length. -/
def dateValid (y : Int) (m d : Nat) : Prop :=
  chronoMinYear ≤ y ∧ y ≤ chronoMaxYear ∧ 1 ≤ m ∧ m ≤ 12 ∧ 1 ≤ d ∧ d ≤ daysInMonth y m

instance (y : Int) (m d : Nat) : Decidable (dateValid y m d) := by
  unfold dateValid; infer_instance

/-- Model of NaiveDate::parse_from_str(input, "%Y-%m-%d") followed by
validation: the items %Y, '-', %m, '-', %d in sequence, the whole string
consumed, and the resulting triple a valid calendar date. -/
def parseDateStr (s : String) : Option (Int × Nat × Nat) :=
  (parseYearField s.data).bind fun yr =>
  (parseLit '-' yr.2).bind fun r2 =>
  (parseNumField 2 r2).bind fun mr =>
  (parseLit '-' mr.2).bind fun r3 =>
  (parseNumField 2 r3).bind fun er =>
  if er.2 = [] ∧ dateValid yr.1 mr.1 er.1 then some (yr.1, mr.1, er.1) else none

/-- Model of NaiveDateTime::parse_from_str(input, "%Y-%m-%dT%H:%M:%S"):
the date items, a literal 'T', then hour, minute and second (two digits each
at most); hour ≤ 23, minute ≤ 59, second ≤ 60 (60 is chrono's leap-second
representation). -/
def parseIsoStr (s : String) : Option (Int × Nat × Nat × Nat × Nat × Nat) :=
  (parseYearField s.data).bind fun yr =>
  (parseLit '-' yr.2).bind fun r2 =>
  (parseNumField 2 r2).bind fun mr =>
  (parseLit '-' mr.2).bind fun r3 =>
  (parseNumField 2 r3).bind fun er =>
  (parseLit 'T' er.2).bind fun r4 =>
  (parseNumField 2 r4).bind fun hr =>
  (parseLit ':' hr.2).bind fun r5 =>
  (parseNumField 2 r5).bind fun mir =>
  (parseLit ':' mir.2).bind fun r6 =>
  (parseNumField 2 r6).bind fun sr =>
  if sr.2 = [] ∧ dateValid yr.1 mr.1 er.1 ∧ hr.1 ≤ 23 ∧ mir.1 ≤ 59 ∧ sr.1 ≤ 60 then
    some (yr.1, mr.1, er.1, hr.1, mir.1, sr.1)
  else none

/-- Seconds since the epoch of a parsed ISO datetime; a second field of 60 is
chrono's leap second, stored as second 59 plus an extra nanosecond that
timestamp() discards. -/
def isoTimestamp (v : Int × Nat × Nat × Nat × Nat × Nat) : Int :=
  daysFromCivil v.1 v.2.1 v.2.2.1 * 86400 +
    v.2.2.2.1 * 3600 + v.2.2.2.2.1 * 60 + min v.2.2.2.2.2 59

/-! The five converter functions of src/main.rs.  Failure (an expect/panic in
the source) is modelled as none. -/

/-- Lines 62-67: the radix clamp, min_base.max(max_base.min(input)). -/
def get_base_radix (input : Nat) : Nat :=
  max 10 (min 36 input)

/-- Lines 70-74: encode the current timestamp (passed here as an argument,
signed as in the source). -/
def now_to_zid (b : Nat) (now : Int) : Option String :=
  some (intToRadix b now)

/-- Lines 78-86: parse a %Y-%m-%d date, take midnight UTC, cast the timestamp
to u64 and radix-encode it. -/
def zid_from_date (b : Nat) (s : String) : Option String :=
  (parseDateStr s).map fun v =>
    natToRadix b (toU64 (daysFromCivil v.1 v.2.1 v.2.2 * 86400))

/-- Lines 89-98: parse a %Y-%m-%dT%H:%M:%S datetime as UTC, cast the
timestamp to u64 and radix-encode it. -/
def zid_from_iso_date (b : Nat) (s : String) : Option String :=
  (parseIsoStr s).map fun v =>
    natToRadix b (toU64 (isoTimestamp v))

/-- Lines 101-108: parse the zID as u64, reinterpret as i64, convert through
NaiveDateTime::from_timestamp_opt (range check) and format as %Y-%m-%d. -/
def zid_to_date (b : Nat) (s : String) : Option String :=
  (fromStrRadix b s).bind fun v =>
    let t := asI64 v
    if chronoMinTimestamp ≤ t ∧ t ≤ chronoMaxTimestamp then
      some (dateStringOfTimestamp t)
    else none

/-- Lines 111-118: as zid_to_date but formatted as %Y-%m-%dT%H:%M:%S. -/
def zid_to_iso_date (b : Nat) (s : String) : Option String :=
  (fromStrRadix b s).bind fun v =>
    let t := asI64 v
    if chronoMinTimestamp ≤ t ∧ t ≤ chronoMaxTimestamp then
      some (isoStringOfTimestamp t)
    else none

/-- The timestamp-to-zID encoding step shared by now_to_zid (for nonnegative
timestamps) and the two generators: radix_fmt on the u64 cast. -/
def encodeTimestamp (b : Nat) (t : Int) : String :=
  natToRadix b (toU64 t)

/-! The command-line layer of src/main.rs. -/

/-- The parsed command line (struct Cli, lines 6-32). -/
structure Cli where
  input : Option String
  radix : Nat
  from_date : Bool
  from_iso_date : Bool
  to_date : Bool
  to_iso_date : Bool

/-- The clap value parser of the radix option (line 13),
clap::value_parser!(u8).range(10..37): values outside 10..=36 are rejected
with a usage error before main's body runs. -/
def parseRadixArg (r : Nat) : Option Nat :=
  if 10 ≤ r ∧ r ≤ 36 then some r else none

/-- Lines 38-42: the input string handed to the converters.  The condition
tests from_date, from_iso_date and to_date only — not to_iso_date — so with
only --to-iso-date set the positional input is discarded and the converter
receives "".  A missing input (none) models the expect panic. -/
def resolveInput (args : Cli) : Option String :=
  if args.from_date || args.from_iso_date || args.to_date then
    args.input.map rustTrim
  else some ""

/-- Lines 44-54: dispatch over the mode switches in the source's order. -/
def runCli (args : Cli) (now : Int) : Option String :=
  let base := get_base_radix args.radix
  (resolveInput args).bind fun input =>
    if args.from_date then zid_from_date base input
    else if args.from_iso_date then zid_from_iso_date base input
    else if args.to_date then zid_to_date base input
    else if args.to_iso_date then zid_to_iso_date base input
    else now_to_zid base now

/-- The spec's strict YYYY-MM-DD pattern (following the specification's
words, for comparison with the parser the code actually uses): exactly four
digits, a dash, two digits, a dash, two digits. -/
def strictDatePattern (s : String) : Bool :=
  match s.data with
  | [y1, y2, y3, y4, h1, m1, m2, h2, d1, d2] =>
    isAsciiDigit y1 && isAsciiDigit y2 && isAsciiDigit y3 && isAsciiDigit y4 &&
    h1 == '-' && isAsciiDigit m1 && isAsciiDigit m2 && h2 == '-' &&
    isAsciiDigit d1 && isAsciiDigit d2
  | _ => false

/-! Helper lemmas about the digit alphabet and radix conversion. -/

/-- Reading back an encoded digit recovers its value (for digits valid in the
base). -/
lemma digitVal_digitChar {b d : Nat} (hd : d < 36) (hdb : d < b) :
    digitVal b (digitChar d) = some d := by
  have h : digitVal b (digitChar d) = if d < b then some d else none := by
    interval_cases d <;> rfl
  rw [h, if_pos hdb]

/-- Encoded digits are never sign characters. -/
lemma digitChar_ne_sign {d : Nat} (hd : d < 36) :
    digitChar d ≠ '+' ∧ digitChar d ≠ '-' := by
  interval_cases d <;> exact ⟨by decide, by decide⟩

/-- The big-endian accumulation fold computes the value of the reversed
(little-endian) digit list. -/
lemma foldl_radix_eq (b : Nat) :
    ∀ (L : List Nat) (acc : Nat),
      L.foldl (fun a d => a * b + d) acc = acc * b ^ L.length + Nat.ofDigits b L.reverse := by
  intro L
  induction L with
  | nil => intro acc; simp [Nat.ofDigits]
  | cons d L ih =>
    intro acc
    simp only [List.foldl_cons, List.length_cons, List.reverse_cons]
    rw [ih (acc * b + d), Nat.ofDigits_append, Nat.ofDigits_singleton,
      List.length_reverse, pow_succ]
    ring

/-- The accumulator never decreases along the fold (b ≥ 1). -/
lemma le_foldl_radix (b : Nat) (hb : 1 ≤ b) :
    ∀ (L : List Nat) (acc : Nat), acc ≤ L.foldl (fun a d => a * b + d) acc := by
  intro L
  induction L with
  | nil => intro acc; simp
  | cons d L ih =>
    intro acc
    simp only [List.foldl_cons]
    have h1 : acc * 1 ≤ acc * b := Nat.mul_le_mul_left acc hb
    exact le_trans (by omega) (ih (acc * b + d))

/-- parseDigits succeeds on a list of encoded digits whose value fits in 64
bits, returning the accumulated value. -/
lemma parseDigits_eq_some (b : Nat) (hb10 : 10 ≤ b) (hb36 : b ≤ 36) :
    ∀ (L : List Nat) (acc : Nat), (∀ d ∈ L, d < b) →
      L.foldl (fun a d => a * b + d) acc < 2 ^ 64 →
      parseDigits b (L.map digitChar) acc = some (L.foldl (fun a d => a * b + d) acc) := by
  intro L
  induction L with
  | nil => intro acc _ _; rfl
  | cons d L ih =>
    intro acc hd hbound
    have hdb : d < b := hd d (by simp)
    have hd36 : d < 36 := lt_of_lt_of_le hdb hb36
    have hstep : acc * b + d ≤ (d :: L).foldl (fun a d => a * b + d) acc := by
      simp only [List.foldl_cons]
      exact le_foldl_radix b (by omega) L (acc * b + d)
    simp only [List.map_cons, parseDigits, digitVal_digitChar hd36 hdb]
    rw [if_pos (by omega)]
    simp only [List.foldl_cons] at hbound ⊢
    exact ih (acc * b + d) (fun x hx => hd x (by simp [hx])) hbound

/-- The fuelled digit extraction agrees with Mathlib's Nat.digits whenever
the fuel covers the argument. -/
lemma radixDigitsAux_eq_digits (b : Nat) (hb : 2 ≤ b) :
    ∀ fuel n, n ≤ fuel → radixDigitsAux b fuel n = Nat.digits b n := by
  intro fuel
  induction fuel with
  | zero =>
    intro n hn
    interval_cases n
    rw [Nat.digits_zero]
    rfl
  | succ fuel ih =>
    intro n hn
    match n with
    | 0 => rw [Nat.digits_zero]; rfl
    | m + 1 =>
      have hdiv : (m + 1) / b < m + 1 := Nat.div_lt_self (Nat.succ_pos m) (by omega)
      rw [radixDigitsAux, ih ((m + 1) / b) (by omega),
        Nat.digits_def' (by omega : 1 < b) (Nat.succ_pos m)]

/-- Round-trip at the string level: decoding an encoded u64 value recovers
it, for any base in the program's range. -/
lemma fromStrRadix_natToRadix (b n : Nat) (hb10 : 10 ≤ b) (hb36 : b ≤ 36)
    (hn : n < 2 ^ 64) : fromStrRadix b (natToRadix b n) = some n := by
  rcases Nat.eq_zero_or_pos n with rfl | hpos
  · have h0 : natToRadix b 0 = "0" := rfl
    rw [h0]
    have hd : ("0" : String).data = ['0'] := rfl
    unfold fromStrRadix
    rw [hd]
    simp only [if_neg (by decide : ¬('0' = '+' ∨ '0' = '-'))]
    have hdv : digitVal b '0' = some 0 := by
      have h : digitVal b '0' = if 0 < b then some 0 else none := rfl
      rw [h, if_pos (by omega)]
    simp only [parseDigits, hdv]
    rw [if_pos (by omega)]
    simp [parseDigits]
  · have hne : Nat.digits b n ≠ [] := Nat.digits_ne_nil_iff_ne_zero.mpr (by omega)
    have hdlt : ∀ d ∈ Nat.digits b n, d < b := fun d hd => Nat.digits_lt_base (by omega) hd
    have hradix : radixDigits b n = Nat.digits b n :=
      radixDigitsAux_eq_digits b (by omega) n n le_rfl
    have hnr : natToRadix b n = String.mk ((Nat.digits b n).reverse.map digitChar) := by
      rw [natToRadix, if_neg (by omega), hradix]
    rcases hrev : (Nat.digits b n).reverse with _ | ⟨d0, R⟩
    · exact absurd (by simpa using congrArg List.reverse hrev) hne
    · have hmem' : ∀ d ∈ d0 :: R, d < b := by
        intro d hd
        apply hdlt
        rw [← List.reverse_reverse (Nat.digits b n), hrev]
        exact List.mem_reverse.mpr hd
      have hd036 : d0 < 36 := lt_of_lt_of_le (hmem' d0 (by simp)) hb36
      have hsign := digitChar_ne_sign hd036
      have hfold : (d0 :: R).foldl (fun a d => a * b + d) 0 = n := by
        rw [foldl_radix_eq]
        simp only [zero_mul, zero_add]
        rw [← hrev, List.reverse_reverse, Nat.ofDigits_digits]
      rw [hnr, hrev]
      unfold fromStrRadix
      simp only [List.map_cons]
      rw [if_neg (by push_neg; exact ⟨hsign.1, hsign.2⟩)]
      have := parseDigits_eq_some b hb10 hb36 (d0 :: R) 0 hmem' (by rw [hfold]; exact hn)
      simp only [List.map_cons] at this
      rw [this, hfold]

/-- parseDigits rejects any list containing a character with no digit value
in the base. -/
lemma parseDigits_none {b : Nat} {c : Char} (hc : digitVal b c = none) :
    ∀ (cs : List Char) (acc : Nat), c ∈ cs → parseDigits b cs acc = none := by
  intro cs
  induction cs with
  | nil => intro acc h; cases h
  | cons c2 cs ih =>
    intro acc hmem
    rcases List.mem_cons.mp hmem with rfl | hmem2
    · simp only [parseDigits, hc]
    · simp only [parseDigits]
      cases hdv : digitVal b c2 with
      | none => rfl
      | some d =>
        dsimp only
        split
        · exact ih _ hmem2
        · rfl

/-- fromStrRadix rejects any string containing a character that is neither a
valid digit of the base nor a (leading) plus sign. -/
lemma fromStrRadix_none {b : Nat} {s : String} {c : Char} (hmem : c ∈ s.data)
    (hval : digitVal b c = none) (hplus : c ≠ '+') : fromStrRadix b s = none := by
  unfold fromStrRadix
  rcases hdata : s.data with _ | ⟨c0, rest⟩
  · rfl
  · rw [hdata] at hmem
    dsimp only
    split_ifs with h1 h2 h3
    · rfl
    · rfl
    · have hc0 : c0 = '+' := by tauto
      have : c ∈ rest := by
        rcases List.mem_cons.mp hmem with rfl | hm
        · exact absurd hc0 hplus
        · exact hm
      exact parseDigits_none hval rest 0 this
    · exact parseDigits_none hval (c0 :: rest) 0 hmem

/-- The date parser only returns triples passing chrono's calendar validity
check. -/
lemma parseDateStr_valid {s : String} {y : Int} {m d : Nat}
    (h : parseDateStr s = some (y, m, d)) : dateValid y m d := by
  unfold parseDateStr at h
  simp only [Option.bind_eq_some] at h
  obtain ⟨yr, _, r2, _, mr, _, r3, _, er, _, h⟩ := h
  split_ifs at h with hc
  · obtain ⟨h1, h2, h3⟩ : yr.1 = y ∧ mr.1 = m ∧ er.1 = d := by
      injection h with h
      exact ⟨congrArg Prod.fst h, congrArg (Prod.fst ∘ Prod.snd) h,
        congrArg (Prod.snd ∘ Prod.snd) h⟩
    subst h1; subst h2; subst h3
    exact hc.2

/-- The ISO datetime parser only returns tuples passing chrono's calendar and
time-of-day validity checks. -/
lemma parseIsoStr_valid {s : String} {v : Int × Nat × Nat × Nat × Nat × Nat}
    (h : parseIsoStr s = some v) :
    dateValid v.1 v.2.1 v.2.2.1 ∧ v.2.2.2.1 ≤ 23 ∧ v.2.2.2.2.1 ≤ 59 ∧ v.2.2.2.2.2 ≤ 60 := by
  unfold parseIsoStr at h
  simp only [Option.bind_eq_some] at h
  obtain ⟨yr, _, r2, _, mr, _, r3, _, er, _, r4, _, hr, _, r5, _, mir, _, r6, _, sr, _, h⟩ := h
  split_ifs at h with hc
  · injection h with h
    subst h
    exact ⟨hc.2.1, hc.2.2.1, hc.2.2.2.1, hc.2.2.2.2⟩

/-- Every month has at most 31 days. -/
lemma daysInMonth_le (y : Int) (m : Nat) : daysInMonth y m ≤ 31 := by
  unfold daysInMonth
  split_ifs <;> omega

/-- On chrono-valid dates, the midnight timestamp (and any second of the day)
fits well within i64. -/
lemma daysFromCivil_secs_bounds {y : Int} {m d : Nat} (hv : dateValid y m d) :
    -(2 ^ 63) < daysFromCivil y m d * 86400 ∧
      daysFromCivil y m d * 86400 + 86399 < 2 ^ 63 := by
  obtain ⟨h1, h2, h3, h4, h5, h6⟩ := hv
  have hd31 : d ≤ 31 := le_trans h6 (daysInMonth_le y m)
  unfold chronoMinYear at h1
  unfold chronoMaxYear at h2
  unfold daysFromCivil
  dsimp only
  split <;> omega

/-- Radix encodings never contain a minus sign. -/
lemma natToRadix_no_minus {b n : Nat} (hb10 : 10 ≤ b) (hb36 : b ≤ 36) :
    '-' ∉ (natToRadix b n).data := by
  unfold natToRadix
  split_ifs with h
  · decide
  · intro hmem
    have hdata : (String.mk ((radixDigits b n).reverse.map digitChar)).data
        = (radixDigits b n).reverse.map digitChar := rfl
    rw [hdata] at hmem
    obtain ⟨dg, hdg, hchar⟩ := List.mem_map.mp hmem
    have hradix : radixDigits b n = Nat.digits b n :=
      radixDigitsAux_eq_digits b (by omega) n n le_rfl
    have hlt : dg < b := by
      apply Nat.digits_lt_base (by omega : 1 < b)
      rw [← hradix]
      exact List.mem_reverse.mp hdg
    exact (digitChar_ne_sign (lt_of_lt_of_le hlt hb36)).2 hchar

/-! Claim theorems. -/

/-- C1: for every Unix timestamp t ≥ 0 in chrono's datetime range and every
base b in [10,36], encoding t as the generators do (radix_fmt on the u64
cast) and decoding with decodeToIsoDate reproduces the UTC datetime of t at
seconds resolution, and decodeToDate reproduces its UTC calendar date. -/
theorem roundtrip_encode_decode (b : Nat) (t : Int)
    (hb1 : 10 ≤ b) (hb2 : b ≤ 36) (ht0 : 0 ≤ t) (ht1 : t ≤ chronoMaxTimestamp) :
    zid_to_iso_date b (encodeTimestamp b t) = some (isoStringOfTimestamp t) ∧
    zid_to_date b (encodeTimestamp b t) = some (dateStringOfTimestamp t) := by
  have hmax : chronoMaxTimestamp = 8210298412799 := by decide
  have hmin : chronoMinTimestamp = -8334632851200 := by decide
  have ht1' : t ≤ 8210298412799 := hmax ▸ ht1
  have hp64 : (2 : Int) ^ 64 = 18446744073709551616 := by norm_num
  have htn : toU64 t = t.toNat := by
    unfold toU64
    rw [hp64]
    omega
  have htn64 : t.toNat < 2 ^ 64 := by
    have : (2 : Nat) ^ 64 = 18446744073709551616 := by norm_num
    omega
  have hfsr : fromStrRadix b (encodeTimestamp b t) = some t.toNat := by
    unfold encodeTimestamp
    rw [htn]
    exact fromStrRadix_natToRadix b t.toNat hb1 hb2 htn64
  have hasI : asI64 t.toNat = t := by
    unfold asI64
    have : (2 : Nat) ^ 63 = 9223372036854775808 := by norm_num
    rw [if_pos (by omega)]
    omega
  have hcond : chronoMinTimestamp ≤ asI64 t.toNat ∧ asI64 t.toNat ≤ chronoMaxTimestamp := by
    rw [hasI]
    exact ⟨by rw [hmin]; omega, ht1⟩
  constructor
  · unfold zid_to_iso_date
    simp only [hfsr, Option.some_bind]
    rw [if_pos hcond, hasI]
  · unfold zid_to_date
    simp only [hfsr, Option.some_bind]
    rw [if_pos hcond, hasI]

/-- Witness for C1 at base 36 and timestamp 978307200 (2001-01-01T00:00:00Z). -/
theorem roundtrip_encode_decode_witness :
    (10 ≤ 36 ∧ (0 : Int) ≤ 978307200 ∧ (978307200 : Int) ≤ chronoMaxTimestamp) ∧
    zid_to_iso_date 36 (encodeTimestamp 36 978307200) = some (isoStringOfTimestamp 978307200) ∧
    zid_to_date 36 (encodeTimestamp 36 978307200) = some (dateStringOfTimestamp 978307200) :=
  ⟨⟨by decide, by decide, by decide⟩,
    roundtrip_encode_decode 36 978307200 (by decide) (by decide) (by decide) (by decide)⟩

/-- C2 (code bug): with only --to-iso-date set, line 38's condition (which
omits args.to_iso_date) discards the positional input, so the converter
receives "" and the run always fails, although the same converter succeeds
on the supplied input and the --to-date path does receive the trimmed
input. -/
theorem to_iso_date_input_discarded :
    resolveInput ⟨some "g6gio0", 36, false, false, false, true⟩ = some "" ∧
    runCli ⟨some "g6gio0", 36, false, false, false, true⟩ 0 = none ∧
    zid_to_iso_date 36 "g6gio0" = some "2001-01-01T00:00:00" ∧
    resolveInput ⟨some " g6gio0 ", 36, false, false, true, false⟩ = some "g6gio0" :=
  ⟨by decide, by decide, by decide, by decide⟩

/-- C3 counterexample: a command-line radix of 5 is rejected by the clap
value parser (range 10..37), not clamped. -/
theorem radix_cli_rejects_out_of_range :
    parseRadixArg 5 = none ∧ parseRadixArg 50 = none :=
  ⟨by decide, by decide⟩

/-- C3 (amended): get_base_radix clamps to max(10, min(36, r)) with the
specified values, but a command-line radix outside [10,36] is rejected by
the clap range parser with a usage error before the clamp runs. -/
theorem radix_clamp_and_cli_rejection :
    (∀ r : Nat, get_base_radix r = max 10 (min 36 r)) ∧
    get_base_radix 5 = 10 ∧ get_base_radix 50 = 36 ∧ get_base_radix 16 = 16 ∧
    (∀ r : Nat, 10 ≤ r → r ≤ 36 → parseRadixArg r = some r) ∧
    (∀ r : Nat, r < 10 ∨ 36 < r → parseRadixArg r = none) := by
  refine ⟨fun r => rfl, rfl, rfl, rfl, ?_, ?_⟩
  · intro r h1 h2
    unfold parseRadixArg
    rw [if_pos ⟨h1, h2⟩]
  · intro r h
    unfold parseRadixArg
    rw [if_neg (by omega)]

/-- Witness for C3's amended claim at radix 16. -/
theorem radix_clamp_witness : parseRadixArg 16 = some 16 :=
  radix_clamp_and_cli_rejection.2.2.2.2.1 16 (by decide) (by decide)

/-- C4 counterexample: decode accepts uppercase digits and a leading plus
sign, which lie outside the claimed exact digit set 0-9, a-z. -/
theorem decode_digit_set_counterexample :
    zid_to_date 36 "G6GIO0" = some "2001-01-01" ∧
    zid_to_date 10 "+978307200" = some "2001-01-01" :=
  ⟨by decide, by decide⟩

/-- C4 (amended): for every base, any input containing a character that is
not a valid base-b digit (case-insensitively) and not a plus sign is
rejected by both decoders; in particular "z" in base 10 fails. -/
theorem decode_digit_set (b : Nat) (s : String) (c : Char)
    (hmem : c ∈ s.data) (hval : digitVal b c = none) (hplus : c ≠ '+') :
    zid_to_date b s = none ∧ zid_to_iso_date b s = none := by
  have h := fromStrRadix_none hmem hval hplus
  constructor
  · unfold zid_to_date
    rw [h]
    rfl
  · unfold zid_to_iso_date
    rw [h]
    rfl

/-- Witness for C4's amended claim: "z" is not a base-10 digit, so decoding
fails. -/
theorem decode_digit_set_witness :
    zid_to_date 10 "z" = none ∧ zid_to_iso_date 10 "z" = none :=
  decode_digit_set 10 "z" 'z' (by decide) (by decide) (by decide)

/-- C5: dispatch honors exactly one switch in the fixed precedence order
from_date > from_iso_date > to_date > to_iso_date > generate-from-now, and
with no switch set the positional input is ignored. -/
theorem mode_precedence (args : Cli) (now : Int) :
    (args.from_date = true →
      runCli args now = (resolveInput args).bind (zid_from_date (get_base_radix args.radix))) ∧
    (args.from_date = false → args.from_iso_date = true →
      runCli args now = (resolveInput args).bind (zid_from_iso_date (get_base_radix args.radix))) ∧
    (args.from_date = false → args.from_iso_date = false → args.to_date = true →
      runCli args now = (resolveInput args).bind (zid_to_date (get_base_radix args.radix))) ∧
    (args.from_date = false → args.from_iso_date = false → args.to_date = false →
      args.to_iso_date = true →
      runCli args now = (resolveInput args).bind (zid_to_iso_date (get_base_radix args.radix))) ∧
    (args.from_date = false → args.from_iso_date = false → args.to_date = false →
      args.to_iso_date = false →
      runCli args now = now_to_zid (get_base_radix args.radix) now ∧
      ∀ i, runCli { args with input := i } now = runCli args now) := by
  obtain ⟨inp, r, fd, fid, td, tid⟩ := args
  refine ⟨?_, ?_, ?_, ?_, ?_⟩
  · intro h1
    dsimp only at h1 ⊢
    subst h1
    simp [runCli]
  · intro h1 h2
    dsimp only at h1 h2 ⊢
    subst h1; subst h2
    simp [runCli]
  · intro h1 h2 h3
    dsimp only at h1 h2 h3 ⊢
    subst h1; subst h2; subst h3
    simp [runCli]
  · intro h1 h2 h3 h4
    dsimp only at h1 h2 h3 h4 ⊢
    subst h1; subst h2; subst h3; subst h4
    simp [runCli]
  · intro h1 h2 h3 h4
    dsimp only at h1 h2 h3 h4 ⊢
    subst h1; subst h2; subst h3; subst h4
    refine ⟨by simp [runCli, resolveInput], fun i => by simp [runCli, resolveInput]⟩

/-- Witness for C5: with all four switches set, the from_date path wins. -/
theorem mode_precedence_witness :
    runCli ⟨some "2001-01-01", 16, true, true, true, true⟩ 0 =
      (resolveInput ⟨some "2001-01-01", 16, true, true, true, true⟩).bind
        (zid_from_date (get_base_radix 16)) :=
  (mode_precedence ⟨some "2001-01-01", 16, true, true, true, true⟩ 0).1 rfl

/-- C6 counterexample: the spec's literal "ky5i0" is not the base-36
encoding of 978307200; it decodes to 1971-02-12, not 2001-01-01. -/
theorem example_2001_counterexample :
    zid_from_date 36 "2001-01-01" ≠ some "ky5i0" ∧
    zid_to_date 36 "ky5i0" ≠ some "2001-01-01" ∧
    zid_to_date 36 "ky5i0" = some "1971-02-12" :=
  ⟨by decide, by decide, by decide⟩

/-- C6 (amended): generateFromDate(36, "2001-01-01") returns the base-36
encoding of 978307200, which is "g6gio0", and decodeToDate(36, "g6gio0")
returns "2001-01-01". -/
theorem example_2001 :
    zid_from_date 36 "2001-01-01" = some "g6gio0" ∧
    natToRadix 36 978307200 = "g6gio0" ∧
    zid_to_date 36 "g6gio0" = some "2001-01-01" :=
  ⟨by decide, by decide, by decide⟩

/-- C7 counterexample: 2001-01-01T07:35:42Z is Unix timestamp 978334542,
not 978330942 (the spec's literal is one hour short); symmetrically
978330942 decodes to 06:35:42. -/
theorem example_iso_counterexample :
    zid_from_iso_date 10 "2001-01-01T07:35:42" ≠ some "978330942" ∧
    zid_to_iso_date 10 "978330942" ≠ some "2001-01-01T07:35:42" ∧
    zid_to_iso_date 10 "978330942" = some "2001-01-01T06:35:42" :=
  ⟨by decide, by decide, by decide⟩

/-- C7 (amended): generateFromIsoDate(10, "2001-01-01T07:35:42") returns the
decimal string "978334542", and decodeToIsoDate(10, "978334542") returns
"2001-01-01T07:35:42". -/
theorem example_iso :
    zid_from_iso_date 10 "2001-01-01T07:35:42" = some "978334542" ∧
    zid_to_iso_date 10 "978334542" = some "2001-01-01T07:35:42" :=
  ⟨by decide, by decide⟩

/-- C8 counterexample: "2001-1-1" does not match the strict YYYY-MM-DD
pattern, yet generateFromDate accepts it (chrono's %m and %d take one or two
digits). -/
theorem from_date_strictness_counterexample :
    strictDatePattern "2001-1-1" = false ∧
    zid_from_date 36 "2001-1-1" = some "g6gio0" :=
  ⟨by decide, by decide⟩

/-- C8 (amended): generateFromDate fails on inputs that chrono's (flexible)
%Y-%m-%d grammar rejects or that denote an invalid calendar date — the
parser only ever yields chrono-valid dates — and in particular "2001-02-30"
and "2001-13-01" fail; but strings need not strictly match YYYY-MM-DD to be
accepted. -/
theorem from_date_validity :
    (∀ (s : String) (y : Int) (m d : Nat), parseDateStr s = some (y, m, d) → dateValid y m d) ∧
    zid_from_date 36 "2001-02-30" = none ∧
    zid_from_date 36 "2001-13-01" = none ∧
    zid_from_date 36 "hello" = none :=
  ⟨fun _ _ _ _ h => parseDateStr_valid h, by decide, by decide, by decide⟩

/-- Witness for C8's amended claim on the valid date 2001-01-01. -/
theorem from_date_validity_witness : dateValid 2001 1 1 :=
  from_date_validity.1 "2001-01-01" 2001 1 1 (by decide)

/-- C9: a zID whose u64 value v exceeds i64::MAX is reinterpreted as the
negative i64 value v - 2^64; when that timestamp is within chrono's range
both decoders succeed and render the (pre-1970, since the timestamp is
negative) date of v - 2^64 instead of rejecting. -/
theorem decode_wraps_to_negative (b : Nat) (s : String) (v : Nat)
    (hp : fromStrRadix b s = some v) (hlo : 2 ^ 63 ≤ v) (hhi : v < 2 ^ 64)
    (hrange : chronoMinTimestamp ≤ (v : Int) - 2 ^ 64) :
    asI64 v = (v : Int) - 2 ^ 64 ∧
    (v : Int) - 2 ^ 64 < 0 ∧
    zid_to_date b s = some (dateStringOfTimestamp ((v : Int) - 2 ^ 64)) ∧
    zid_to_iso_date b s = some (isoStringOfTimestamp ((v : Int) - 2 ^ 64)) := by
  have hasI : asI64 v = (v : Int) - 2 ^ 64 := by
    unfold asI64
    rw [if_neg (by omega)]
  have hneg : (v : Int) - 2 ^ 64 < 0 := by
    have h64 : (v : Int) < 2 ^ 64 := by exact_mod_cast hhi
    omega
  have hcmax : (0 : Int) ≤ chronoMaxTimestamp := by decide
  have hcond : chronoMinTimestamp ≤ asI64 v ∧ asI64 v ≤ chronoMaxTimestamp := by
    rw [hasI]
    exact ⟨hrange, by omega⟩
  refine ⟨hasI, hneg, ?_, ?_⟩
  · unfold zid_to_date
    simp only [hp, Option.some_bind]
    rw [if_pos hcond, hasI]
  · unfold zid_to_iso_date
    simp only [hp, Option.some_bind]
    rw [if_pos hcond, hasI]

set_option maxHeartbeats 2000000 in
/-- Witness for C9: 2^64 - 86400 decodes to timestamp -86400, i.e.
1969-12-31. -/
theorem decode_wraps_to_negative_witness :
    asI64 18446744073709465216 = ((18446744073709465216 : Nat) : Int) - 2 ^ 64 ∧
    ((18446744073709465216 : Nat) : Int) - 2 ^ 64 < 0 ∧
    zid_to_date 10 "18446744073709465216" =
      some (dateStringOfTimestamp (((18446744073709465216 : Nat) : Int) - 2 ^ 64)) ∧
    zid_to_iso_date 10 "18446744073709465216" =
      some (isoStringOfTimestamp (((18446744073709465216 : Nat) : Int) - 2 ^ 64)) :=
  decode_wraps_to_negative 10 "18446744073709465216" 18446744073709465216
    (by decide) (by decide) (by decide) (by decide)

set_option maxHeartbeats 1000000 in
/-- C10: for dates and datetimes strictly before the epoch, the generators
cast the negative timestamp t to u64 and encode t + 2^64: a huge positive
value, with no minus sign and no error. -/
theorem encode_pre_epoch (b : Nat) (s : String) :
    (∀ (y : Int) (m d : Nat), 10 ≤ b → b ≤ 36 → parseDateStr s = some (y, m, d) →
      daysFromCivil y m d * 86400 < 0 →
      zid_from_date b s =
        some (natToRadix b (daysFromCivil y m d * 86400 + 2 ^ 64).toNat) ∧
      '-' ∉ (natToRadix b (daysFromCivil y m d * 86400 + 2 ^ 64).toNat).data) ∧
    (∀ v, 10 ≤ b → b ≤ 36 → parseIsoStr s = some v → isoTimestamp v < 0 →
      zid_from_iso_date b s = some (natToRadix b (isoTimestamp v + 2 ^ 64).toNat) ∧
      '-' ∉ (natToRadix b (isoTimestamp v + 2 ^ 64).toNat).data) := by
  constructor
  · intro y m d hb1 hb2 hparse hneg
    have hv := parseDateStr_valid hparse
    have hbounds := daysFromCivil_secs_bounds hv
    have htu : toU64 (daysFromCivil y m d * 86400) =
        (daysFromCivil y m d * 86400 + 2 ^ 64).toNat := by
      unfold toU64
      have hp64 : (2 : Int) ^ 64 = 18446744073709551616 := by norm_num
      have hp63 : (2 : Int) ^ 63 = 9223372036854775808 := by norm_num
      rw [hp64] at *
      rw [hp63] at hbounds
      omega
    refine ⟨?_, natToRadix_no_minus hb1 hb2⟩
    unfold zid_from_date
    rw [hparse]
    simp only [Option.map_some']
    rw [htu]
  · intro v hb1 hb2 hparse hneg
    obtain ⟨hv, hh, hmi, hs⟩ := parseIsoStr_valid hparse
    have hbounds := daysFromCivil_secs_bounds hv
    have hminle : min v.2.2.2.2.2 59 ≤ 59 := min_le_right _ _
    have htu : toU64 (isoTimestamp v) = (isoTimestamp v + 2 ^ 64).toNat := by
      unfold toU64 isoTimestamp
      unfold isoTimestamp at hneg
      have hp64 : (2 : Int) ^ 64 = 18446744073709551616 := by norm_num
      have hp63 : (2 : Int) ^ 63 = 9223372036854775808 := by norm_num
      rw [hp64] at *
      rw [hp63] at hbounds
      omega
    refine ⟨?_, natToRadix_no_minus hb1 hb2⟩
    unfold zid_from_iso_date
    rw [hparse]
    simp only [Option.map_some']
    rw [htu]

/-- Witness for C10: 1969-12-31 (timestamp -86400) encodes, in base 10, as
the decimal digits of 2^64 - 86400. -/
theorem encode_pre_epoch_witness :
    zid_from_date 10 "1969-12-31" =
      some (natToRadix 10 (daysFromCivil 1969 12 31 * 86400 + 2 ^ 64).toNat) ∧
    '-' ∉ (natToRadix 10 (daysFromCivil 1969 12 31 * 86400 + 2 ^ 64).toNat).data :=
  (encode_pre_epoch 10 "1969-12-31").1 1969 12 31 (by decide) (by decide)
    (by decide) (by decide)

end ZID
